import Mathlib

/-!
Verification development for the TOC-Project smart-home repository.

The core of the repository is a backtracking recursive-descent parser over a
grammar table (`src/codeNew.py` `parse_symbol` / `parse_command`, and the same
algorithm with a different table in `src/code.py` `parse_symbol` / `parse`),
followed by a semantic-extraction stage (`interpret`, `extract_device`), a
time resolver (`parse_time_of_day`, `parse_duration`), a device controller
(`DeviceController.set_device`) and a dispatcher (`SmartHomeAssistant.handle`).

Each Python function is embedded as an executable Lean definition.  The
Python recursion in `parse_symbol` has no structural termination argument
(it terminates because the concrete grammar tables are acyclic), so the
embedding adds an explicit fuel counter that is decremented once per
nonterminal expansion; fuel exhaustion returns failure at the current
position.  The fixed tables `GRAMMAR` and `grammar` below nest nonterminals
at most 4 deep, so with the fuel value `FUEL = 10` used by the top-level
entry points the fuel can never reach 0 in any reachable call, and the
embedding computes exactly what the Python code computes on every token
sequence.
-/

namespace SmartHome

/-- Trace events, one per string appended to the `trace` list by the Python
parser: `Expanding sym → prod`, `✓ Matched 'sym'`,
`❌ Expected 'sym', got 'found'` (with `found = "EOF"` past the end of the
input), and `Backtrack on sym → prod`. -/
inductive TraceEvent where
  | expand (sym : String) (prod : List String)
  | matched (sym : String)
  | mismatch (sym : String) (found : String)
  | backtrack (sym : String) (prod : List String)
deriving DecidableEq, Repr

/-- A grammar table: ordered association list from nonterminal name to the
ordered list of its productions.  A symbol is a terminal iff it is absent
from the table (`sym not in GRAMMAR` in the Python code). -/
abbrev Grammar := List (String × List (List String))

/-- The `for s2 in prod` loop of `parse_symbol` (src/codeNew.py lines
101-103): evaluate the members of one production sequentially, threading the
position, stopping at the first failure.  `eval` is the recursive symbol
evaluator, supplied by `parse_symbol`. -/
def parseSeq (eval : String → Nat → List TraceEvent → Bool × Nat × List TraceEvent) :
    List String → Nat → List TraceEvent → Bool × Nat × List TraceEvent
  | [], j, trace => (true, j, trace)
  | s2 :: rest, j, trace =>
    let r := eval s2 j trace
    if r.1 then parseSeq eval rest r.2.1 r.2.2
    else (false, r.2.1, r.2.2)

/-- The `for prod in GRAMMAR[sym]` loop of `parse_symbol` (src/codeNew.py
lines 98-106): try each production in table order, returning the first
success; on failure of a production emit a backtrack event and restore the
position to `i`. -/
def parseProds (eval : String → Nat → List TraceEvent → Bool × Nat × List TraceEvent)
    (sym : String) :
    List (List String) → Nat → List TraceEvent → Bool × Nat × List TraceEvent
  | [], i, trace => (false, i, trace)
  | prod :: rest, i, trace =>
    let r := parseSeq eval prod i (trace ++ [TraceEvent.expand sym prod])
    if r.1 then r
    else parseProds eval sym rest i (r.2.2 ++ [TraceEvent.backtrack sym prod])

/-- Embedding of `parse_symbol(sym, tokens, i, trace)` from `src/codeNew.py`
lines 91-106 (identical algorithm in `src/code.py` lines 45-67), with an
explicit fuel counter standing for the call stack.  Returns
`(ok, new position, trace)`. -/
def parse_symbol (g : Grammar) : Nat → String → List String → Nat → List TraceEvent →
    Bool × Nat × List TraceEvent
  | fuel, sym, tokens, i, trace =>
    match List.lookup sym g with
    | none =>
      match tokens[i]? with
      | some t =>
        if t = sym then (true, i + 1, trace ++ [TraceEvent.matched sym])
        else (false, i, trace ++ [TraceEvent.mismatch sym t])
      | none => (false, i, trace ++ [TraceEvent.mismatch sym "EOF"])
    | some prods =>
      match fuel with
      | 0 => (false, i, trace)
      | Nat.succ f =>
        parseProds (fun s2 j tr => parse_symbol g f s2 tokens j tr) sym prods i trace

/-- The grammar table `GRAMMAR` of `src/codeNew.py` lines 75-89. -/
def GRAMMAR : Grammar := [
  ("COMMAND", [["ACTION"], ["SCHEDULE"]]),
  ("ACTION", [["VERB", "SWITCH", "DEVICE"]]),
  ("VERB", [["turn"], ["switch"]]),
  ("SWITCH", [["on"], ["off"]]),
  ("DEVICE", [["the", "ROOM", "DEVICE_NP"], ["DEVICE_NP", "in", "ROOM"], ["DEVICE_NP"]]),
  ("ROOM", [["living", "room"], ["kitchen"], ["bedroom"], ["bathroom"]]),
  ("DEVICE_NP", [["light"], ["lights"], ["fan"], ["heater"], ["air", "conditioner"]]),
  ("SCHEDULE", [["REMIND_PHRASE", "TASK", "TIME_PHRASE"]]),
  ("REMIND_PHRASE", [["remind", "me", "to"], ["set", "alarm", "for"], ["schedule", "a"]]),
  ("TASK", [["take", "medicine"], ["water", "the", "plants"], ["meeting", "with", "team"],
            ["read", "the", "book"]]),
  ("TIME_PHRASE", [["at", "TIME"], ["after", "DURATION"], ["tomorrow", "at", "TIME"]]),
  ("TIME", [["6", "pm"], ["7", "am"], ["3", "pm"], ["9", "am"]]),
  ("DURATION", [["1", "hour"], ["2", "hours"], ["30", "minutes"]])
]

/-- The grammar table `grammar` of `src/code.py` lines 9-30 (note the
epsilon production in `LOCATION_OPT`). -/
def grammar : Grammar := [
  ("COMMAND", [["ACTION"]]),
  ("ACTION", [["VERB", "SWITCH", "TARGET"]]),
  ("VERB", [["turn"], ["switch"]]),
  ("SWITCH", [["on"], ["off"]]),
  ("TARGET", [["ALL_PHRASE"], ["DEVICE_PHRASE"], ["DEVICE_IN_ROOM"]]),
  ("ALL_PHRASE", [["all", "DEVICE_PLURAL"]]),
  ("DEVICE_PHRASE", [["LOCATION_OPT", "DEVICE_NP"]]),
  ("DEVICE_IN_ROOM", [["DEVICE_NP", "in", "ROOM"]]),
  ("LOCATION_OPT", [["the", "ROOM"], ["in", "ROOM"], ["the"], []]),
  ("DEVICE_NP", [["lights"], ["light"], ["fan"], ["fans"], ["heater"],
                 ["air", "conditioner"], ["conditioner"]]),
  ("DEVICE_PLURAL", [["lights"], ["fans"]]),
  ("ROOM", [["living", "room"], ["kitchen"], ["bedroom"], ["bathroom"]])
]

/-- Fuel used by the top-level entry points.  Both tables nest nonterminals
at most 4 deep (e.g. COMMAND → ACTION → DEVICE → ROOM), so 10 units of fuel
are never exhausted on any input. -/
def FUEL : Nat := 10

/-- Embedding of `parse_command(tokens)` from `src/codeNew.py` lines
108-111: `ok and idx == len(tokens)`, together with the trace. -/
def parse_command (tokens : List String) : Bool × List TraceEvent :=
  let r := parse_symbol GRAMMAR FUEL "COMMAND" tokens 0 []
  (r.1 && decide (r.2.1 = tokens.length), r.2.2)

/-- Embedding of `parse(tokens)` from `src/code.py` lines 69-76 (the
`show_trace` printing is I/O only; the returned verdict is
`ok and index == len(tokens)`). -/
def parse (tokens : List String) : Bool :=
  let r := parse_symbol grammar FUEL "COMMAND" tokens 0 []
  r.1 && decide (r.2.1 = tokens.length)

/-- Sanity check of the embedding against the repository's own example
commands: a well-formed command is accepted. -/
theorem sanity_accepts : (parse_command ["turn", "on", "the", "kitchen", "fan"]).1 = true := by
  decide

/-- Sanity check: a structurally valid prefix with a trailing token is
rejected. -/
theorem sanity_trailing_rejected : (parse_command ["turn", "on", "fan", "now"]).1 = false := by
  decide

/-- Sanity check of the code.py table: "turn off all lights" is accepted. -/
theorem sanity_all_lights : parse ["turn", "off", "all", "lights"] = true := by decide

/-- Sanity check of the code.py table: the repository's own malformed test
command is rejected. -/
theorem sanity_malformed : parse ["turn", "living", "on", "lights"] = false := by decide

/-- One-step unfolding of `parse_symbol` at a terminal symbol. -/
theorem parse_symbol_terminal (g : Grammar) (fuel : Nat) (sym : String)
    (tokens : List String) (i : Nat) (trace : List TraceEvent)
    (h : List.lookup sym g = none) :
    parse_symbol g fuel sym tokens i trace =
      match tokens[i]? with
      | some t =>
        if t = sym then (true, i + 1, trace ++ [TraceEvent.matched sym])
        else (false, i, trace ++ [TraceEvent.mismatch sym t])
      | none => (false, i, trace ++ [TraceEvent.mismatch sym "EOF"]) := by
  cases fuel <;> (rw [parse_symbol]; rw [h])

/-- One-step unfolding of `parse_symbol` at a nonterminal with positive
fuel: the production loop is entered with one unit of fuel less. -/
theorem parse_symbol_nonterminal (g : Grammar) (f : Nat) (sym : String)
    (tokens : List String) (i : Nat) (trace : List TraceEvent)
    (prods : List (List String)) (h : List.lookup sym g = some prods) :
    parse_symbol g (Nat.succ f) sym tokens i trace =
      parseProds (fun s2 j tr => parse_symbol g f s2 tokens j tr) sym prods i trace := by
  rw [parse_symbol]; rw [h]

/-- One-step unfolding of `parse_symbol` at a nonterminal with no fuel:
failure at the original position (unreachable for the fixed tables at the
fuel used by the entry points). -/
theorem parse_symbol_zero (g : Grammar) (sym : String)
    (tokens : List String) (i : Nat) (trace : List TraceEvent)
    (prods : List (List String)) (h : List.lookup sym g = some prods) :
    parse_symbol g 0 sym tokens i trace = (false, i, trace) := by
  rw [parse_symbol]; rw [h]

/-- Failure of the production loop always reports the original position,
whatever the symbol evaluator does: each production is retried from `i` and
the final failure returns `(False, i)`. -/
theorem parseProds_fail_pos (eval : String → Nat → List TraceEvent → Bool × Nat × List TraceEvent)
    (sym : String) (prods : List (List String)) (i : Nat) (trace : List TraceEvent)
    (h : (parseProds eval sym prods i trace).1 = false) :
    (parseProds eval sym prods i trace).2.1 = i := by
  induction prods generalizing trace with
  | nil => simp [parseProds]
  | cons prod rest ih =>
    simp only [parseProds] at h ⊢
    by_cases hr : (parseSeq eval prod i (trace ++ [TraceEvent.expand sym prod])).1 = true
    · simp [hr] at h
    · simp only [Bool.not_eq_true] at hr
      simp only [hr, if_neg Bool.false_ne_true] at h ⊢
      exact ih _ h

/-- C1: the top-level parse accepts iff evaluating the start symbol COMMAND
from position 0 succeeds and the final consumed position equals the token
count; a successful prefix parse with trailing tokens is rejected.  Stated
for `parse_command` (src/codeNew.py) and `parse` (src/code.py). -/
theorem parse_command_accept_iff (tokens : List String) :
    ((parse_command tokens).1 = true ↔
      (parse_symbol GRAMMAR FUEL "COMMAND" tokens 0 []).1 = true ∧
        (parse_symbol GRAMMAR FUEL "COMMAND" tokens 0 []).2.1 = tokens.length) ∧
    (parse tokens = true ↔
      (parse_symbol grammar FUEL "COMMAND" tokens 0 []).1 = true ∧
        (parse_symbol grammar FUEL "COMMAND" tokens 0 []).2.1 = tokens.length) := by
  constructor
  · simp [parse_command]
  · simp [parse]

/-- C2: productions of a nonterminal are tried in table order and the first
production whose full member sequence succeeds wins.  If the first listed
production succeeds from position `i`, the parser returns exactly its result
(so a later alternative is never explored); if it fails, the parser is the
production loop on the remaining alternatives, restarted from `i`, after a
backtrack event. -/
theorem parse_symbol_first_match (g : Grammar) (f : Nat) (sym : String)
    (tokens : List String) (i : Nat) (trace : List TraceEvent)
    (A : List String) (rest : List (List String))
    (hlook : List.lookup sym g = some (A :: rest)) :
    (((parseSeq (fun s2 j tr => parse_symbol g f s2 tokens j tr) A i
          (trace ++ [TraceEvent.expand sym A])).1 = true →
        parse_symbol g (f + 1) sym tokens i trace =
          parseSeq (fun s2 j tr => parse_symbol g f s2 tokens j tr) A i
            (trace ++ [TraceEvent.expand sym A])) ∧
      ((parseSeq (fun s2 j tr => parse_symbol g f s2 tokens j tr) A i
          (trace ++ [TraceEvent.expand sym A])).1 = false →
        parse_symbol g (f + 1) sym tokens i trace =
          parseProds (fun s2 j tr => parse_symbol g f s2 tokens j tr) sym rest i
            ((parseSeq (fun s2 j tr => parse_symbol g f s2 tokens j tr) A i
                (trace ++ [TraceEvent.expand sym A])).2.2 ++ [TraceEvent.backtrack sym A]))) := by
  have hstep : parse_symbol g (f + 1) sym tokens i trace =
      parseProds (fun s2 j tr => parse_symbol g f s2 tokens j tr) sym (A :: rest) i trace :=
    parse_symbol_nonterminal g f sym tokens i trace (A :: rest) hlook
  constructor
  · intro hA
    rw [hstep]
    simp only [parseProds, hA, if_pos]
  · intro hA
    rw [hstep]
    simp only [parseProds, hA, Bool.false_eq_true, if_false]

/-- Witness for C2 at a concrete input: for the nonterminal VERB with
productions [["turn"], ["switch"]] and input ["turn"], the first production
succeeds, so the parser returns its result. -/
theorem parse_symbol_first_match_witness :
    parse_symbol GRAMMAR (9 + 1) "VERB" ["turn"] 0 [] =
      parseSeq (fun s2 j tr => parse_symbol GRAMMAR 9 s2 ["turn"] j tr) ["turn"] 0
        ([] ++ [TraceEvent.expand "VERB" ["turn"]]) :=
  (parse_symbol_first_match GRAMMAR 9 "VERB" ["turn"] 0 [] ["turn"] [["switch"]]
    (by decide)).1 (by decide)

/-- C7: whenever evaluation of a symbol fails — a terminal mismatch, fuel
exhaustion, or all productions of a nonterminal failing — the parser returns
the original position `i` unchanged. -/
theorem parse_symbol_fail_pos (g : Grammar) (fuel : Nat) (sym : String)
    (tokens : List String) (i : Nat) (trace : List TraceEvent)
    (h : (parse_symbol g fuel sym tokens i trace).1 = false) :
    (parse_symbol g fuel sym tokens i trace).2.1 = i := by
  cases hlook : List.lookup sym g with
  | none =>
    rw [parse_symbol_terminal g fuel sym tokens i trace hlook] at h ⊢
    cases hget : tokens[i]? with
    | none => simp [hget]
    | some t =>
      simp only [hget] at h ⊢
      by_cases ht : t = sym
      · simp [ht] at h
      · simp [ht]
  | some prods =>
    match fuel with
    | 0 => rw [parse_symbol_zero g sym tokens i trace prods hlook]
    | Nat.succ f =>
      rw [parse_symbol_nonterminal g f sym tokens i trace prods hlook] at h ⊢
      exact parseProds_fail_pos _ _ _ _ _ h

/-- Witness for C7 at a concrete input: COMMAND fails on ["hello"] and the
returned position is the original 0. -/
theorem parse_symbol_fail_pos_witness :
    (parse_symbol GRAMMAR FUEL "COMMAND" ["hello"] 0 []).2.1 = 0 :=
  parse_symbol_fail_pos GRAMMAR FUEL "COMMAND" ["hello"] 0 [] (by decide)

/-- Bounds for the member loop: if the symbol evaluator never moves the
position backwards or past the end, neither does the sequential evaluation
of a production's members. -/
theorem parseSeq_bounds {n : Nat}
    (eval : String → Nat → List TraceEvent → Bool × Nat × List TraceEvent)
    (heval : ∀ s j tr, j ≤ n → j ≤ (eval s j tr).2.1 ∧ (eval s j tr).2.1 ≤ n) :
    ∀ (members : List String) (j : Nat) (trace : List TraceEvent), j ≤ n →
      j ≤ (parseSeq eval members j trace).2.1 ∧ (parseSeq eval members j trace).2.1 ≤ n := by
  intro members
  induction members with
  | nil =>
    intro j trace hj
    simp only [parseSeq]
    exact ⟨Nat.le_refl j, hj⟩
  | cons s rest ih =>
    intro j trace hj
    simp only [parseSeq]
    obtain ⟨h1, h2⟩ := heval s j trace hj
    by_cases hr : (eval s j trace).1 = true
    · simp only [hr, if_pos]
      obtain ⟨h3, h4⟩ := ih (eval s j trace).2.1 (eval s j trace).2.2 h2
      exact ⟨Nat.le_trans h1 h3, h4⟩
    · simp only [Bool.not_eq_true] at hr
      simp only [hr, Bool.false_eq_true, if_false]
      exact ⟨h1, h2⟩

/-- Bounds for the production loop, under the same evaluator hypothesis. -/
theorem parseProds_bounds {n : Nat}
    (eval : String → Nat → List TraceEvent → Bool × Nat × List TraceEvent)
    (heval : ∀ s j tr, j ≤ n → j ≤ (eval s j tr).2.1 ∧ (eval s j tr).2.1 ≤ n)
    (sym : String) :
    ∀ (prods : List (List String)) (i : Nat) (trace : List TraceEvent), i ≤ n →
      i ≤ (parseProds eval sym prods i trace).2.1 ∧
        (parseProds eval sym prods i trace).2.1 ≤ n := by
  intro prods
  induction prods with
  | nil =>
    intro i trace hi
    simp only [parseProds]
    exact ⟨Nat.le_refl i, hi⟩
  | cons prod rest ih =>
    intro i trace hi
    simp only [parseProds]
    by_cases hr : (parseSeq eval prod i (trace ++ [TraceEvent.expand sym prod])).1 = true
    · simp only [hr, if_pos]
      exact parseSeq_bounds eval heval prod i _ hi
    · simp only [Bool.not_eq_true] at hr
      simp only [hr, Bool.false_eq_true, if_false]
      exact ih i _ hi

/-- Bounds for a terminal symbol: the position either advances by one
(staying within the token count) on a match, or stays put. -/
theorem parse_symbol_terminal_bounds (g : Grammar) (fuel : Nat) (sym : String)
    (tokens : List String) (i : Nat) (trace : List TraceEvent)
    (hlook : List.lookup sym g = none) (hi : i ≤ tokens.length) :
    i ≤ (parse_symbol g fuel sym tokens i trace).2.1 ∧
      (parse_symbol g fuel sym tokens i trace).2.1 ≤ tokens.length := by
  cases hget : tokens[i]? with
  | none =>
    have hred : parse_symbol g fuel sym tokens i trace =
        (false, i, trace ++ [TraceEvent.mismatch sym "EOF"]) := by
      rw [parse_symbol_terminal g fuel sym tokens i trace hlook]
      simp [hget]
    rw [hred]
    exact ⟨Nat.le_refl i, hi⟩
  | some t =>
    obtain ⟨hlt, -⟩ := List.getElem?_eq_some.mp hget
    by_cases ht : t = sym
    · have hred : parse_symbol g fuel sym tokens i trace =
          (true, i + 1, trace ++ [TraceEvent.matched sym]) := by
        rw [parse_symbol_terminal g fuel sym tokens i trace hlook]
        simp [hget, ht]
      rw [hred]
      exact ⟨Nat.le_succ i, hlt⟩
    · have hred : parse_symbol g fuel sym tokens i trace =
          (false, i, trace ++ [TraceEvent.mismatch sym t]) := by
        rw [parse_symbol_terminal g fuel sym tokens i trace hlook]
        simp [hget, ht]
      rw [hred]
      exact ⟨Nat.le_refl i, hi⟩

/-- Position bounds for the evaluator, by induction on the fuel: starting
inside the token sequence, the returned position never moves backwards and
never exceeds the token count. -/
theorem parse_symbol_bounds (g : Grammar) (fuel : Nat) :
    ∀ (sym : String) (tokens : List String) (i : Nat) (trace : List TraceEvent),
      i ≤ tokens.length →
      i ≤ (parse_symbol g fuel sym tokens i trace).2.1 ∧
        (parse_symbol g fuel sym tokens i trace).2.1 ≤ tokens.length := by
  induction fuel with
  | zero =>
    intro sym tokens i trace hij
    cases hlook : List.lookup sym g with
    | none => exact parse_symbol_terminal_bounds g 0 sym tokens i trace hlook hij
    | some prods =>
      rw [parse_symbol_zero g sym tokens i trace prods hlook]
      exact ⟨Nat.le_refl i, hij⟩
  | succ f ihf =>
    intro sym tokens i trace hij
    cases hlook : List.lookup sym g with
    | none => exact parse_symbol_terminal_bounds g (Nat.succ f) sym tokens i trace hlook hij
    | some prods =>
      rw [parse_symbol_nonterminal g f sym tokens i trace prods hlook]
      exact parseProds_bounds _ (fun s j tr hj => ihf s tokens j tr hj) sym prods i trace hij

/-- C8: for every grammar, fuel, symbol, token sequence and starting
position `i ≤ len(tokens)`, the position returned by the recursive
evaluator satisfies `i ≤ returned ≤ len(tokens)`; in particular the
top-level consumed index of the codeNew.py parser never exceeds the token
count. -/
theorem parse_symbol_pos_le (g : Grammar) (fuel : Nat) (sym : String)
    (tokens : List String) (i : Nat) (trace : List TraceEvent)
    (hi : i ≤ tokens.length) :
    (i ≤ (parse_symbol g fuel sym tokens i trace).2.1 ∧
      (parse_symbol g fuel sym tokens i trace).2.1 ≤ tokens.length) ∧
    (parse_symbol GRAMMAR FUEL "COMMAND" tokens 0 []).2.1 ≤ tokens.length :=
  ⟨parse_symbol_bounds g fuel sym tokens i trace hi,
    (parse_symbol_bounds GRAMMAR FUEL "COMMAND" tokens 0 [] (Nat.zero_le _)).2⟩

/-- The Python trace list is append-only: a terminal step writes `trace` as
prefix plus the one event it emits, independent of what `trace` held. -/
theorem parse_symbol_terminal_accum (g : Grammar) (fuel : Nat) (sym : String)
    (tokens : List String) (i : Nat) (trace : List TraceEvent)
    (hlook : List.lookup sym g = none) :
    parse_symbol g fuel sym tokens i trace =
      ((parse_symbol g fuel sym tokens i []).1, (parse_symbol g fuel sym tokens i []).2.1,
        trace ++ (parse_symbol g fuel sym tokens i []).2.2) := by
  rw [parse_symbol_terminal g fuel sym tokens i trace hlook,
    parse_symbol_terminal g fuel sym tokens i [] hlook]
  cases tokens[i]? with
  | none => simp
  | some t =>
    by_cases ht : t = sym
    · simp [ht]
    · simp [ht]

/-- Append-only accumulation through the member loop: whatever events the
symbol evaluator emits depend only on the symbol and the position, so the
result of the loop is the initial trace followed by a fixed emitted
segment. -/
theorem parseSeq_accum
    (eval : String → Nat → List TraceEvent → Bool × Nat × List TraceEvent)
    (heval : ∀ s j tr, eval s j tr =
      ((eval s j []).1, (eval s j []).2.1, tr ++ (eval s j []).2.2)) :
    ∀ (members : List String) (j : Nat) (trace : List TraceEvent),
      parseSeq eval members j trace =
        ((parseSeq eval members j []).1, (parseSeq eval members j []).2.1,
          trace ++ (parseSeq eval members j []).2.2) := by
  intro members
  induction members with
  | nil => intro j trace; simp [parseSeq]
  | cons s rest ih =>
    intro j trace
    rcases heq : eval s j [] with ⟨a1, a2, aD⟩
    have ha : eval s j trace = (a1, a2, trace ++ aD) := by
      rw [heval s j trace, heq]
    simp only [parseSeq, ha, heq]
    cases a1 with
    | false => simp
    | true =>
      simp only [if_pos]
      rw [ih a2 (trace ++ aD), ih a2 aD]
      simp [List.append_assoc]

/-- Append-only accumulation through the production loop. -/
theorem parseProds_accum
    (eval : String → Nat → List TraceEvent → Bool × Nat × List TraceEvent)
    (heval : ∀ s j tr, eval s j tr =
      ((eval s j []).1, (eval s j []).2.1, tr ++ (eval s j []).2.2))
    (sym : String) :
    ∀ (prods : List (List String)) (i : Nat) (trace : List TraceEvent),
      parseProds eval sym prods i trace =
        ((parseProds eval sym prods i []).1, (parseProds eval sym prods i []).2.1,
          trace ++ (parseProds eval sym prods i []).2.2) := by
  intro prods
  induction prods with
  | nil => intro i trace; simp [parseProds]
  | cons prod rest ih =>
    intro i trace
    rcases heq : parseSeq eval prod i [] with ⟨s1, s2, sD⟩
    have h1 : parseSeq eval prod i (trace ++ [TraceEvent.expand sym prod]) =
        (s1, s2, trace ++ [TraceEvent.expand sym prod] ++ sD) := by
      rw [parseSeq_accum eval heval prod i (trace ++ [TraceEvent.expand sym prod]), heq]
    have h2 : parseSeq eval prod i ([] ++ [TraceEvent.expand sym prod]) =
        (s1, s2, [] ++ [TraceEvent.expand sym prod] ++ sD) := by
      rw [parseSeq_accum eval heval prod i ([] ++ [TraceEvent.expand sym prod]), heq]
    simp only [parseProds, h1, h2]
    cases s1 with
    | true => simp [List.append_assoc]
    | false =>
      simp only [Bool.false_eq_true, if_false]
      rw [ih i (trace ++ [TraceEvent.expand sym prod] ++ sD ++ [TraceEvent.backtrack sym prod]),
        ih i ([] ++ [TraceEvent.expand sym prod] ++ sD ++ [TraceEvent.backtrack sym prod])]
      simp [List.append_assoc]

/-- Append-only accumulation for the whole evaluator: the verdict, the new
position and the emitted trace segment are functions of the grammar, the
fuel, the symbol, the tokens and the position alone — independent of the
trace already accumulated. -/
theorem parse_symbol_accum (g : Grammar) (tokens : List String) :
    ∀ (fuel : Nat) (sym : String) (i : Nat) (trace : List TraceEvent),
      parse_symbol g fuel sym tokens i trace =
        ((parse_symbol g fuel sym tokens i []).1, (parse_symbol g fuel sym tokens i []).2.1,
          trace ++ (parse_symbol g fuel sym tokens i []).2.2) := by
  intro fuel
  induction fuel with
  | zero =>
    intro sym i trace
    cases hlook : List.lookup sym g with
    | none => exact parse_symbol_terminal_accum g 0 sym tokens i trace hlook
    | some prods =>
      rw [parse_symbol_zero g sym tokens i trace prods hlook,
        parse_symbol_zero g sym tokens i [] prods hlook]
      simp
  | succ f ihf =>
    intro sym i trace
    cases hlook : List.lookup sym g with
    | none => exact parse_symbol_terminal_accum g (Nat.succ f) sym tokens i trace hlook
    | some prods =>
      rw [parse_symbol_nonterminal g f sym tokens i trace prods hlook,
        parse_symbol_nonterminal g f sym tokens i [] prods hlook]
      exact parseProds_accum _ (fun s j tr => ihf s j tr) sym prods i trace

/-- C9: parsing is deterministic and replayable: the accept/reject verdict,
the consumed index and the emitted trace events of the parser depend only on
the grammar and the token sequence — two invocations, even started with
different pre-existing trace accumulators, agree event for event; and
`parse_command` is a pure function of the tokens. -/
theorem parse_command_deterministic (tokens : List String) (tr tr' : List TraceEvent) :
    (parse_symbol GRAMMAR FUEL "COMMAND" tokens 0 tr).1 =
      (parse_symbol GRAMMAR FUEL "COMMAND" tokens 0 tr').1 ∧
    (parse_symbol GRAMMAR FUEL "COMMAND" tokens 0 tr).2.1 =
      (parse_symbol GRAMMAR FUEL "COMMAND" tokens 0 tr').2.1 ∧
    (parse_symbol GRAMMAR FUEL "COMMAND" tokens 0 tr).2.2.drop tr.length =
      (parse_symbol GRAMMAR FUEL "COMMAND" tokens 0 tr').2.2.drop tr'.length ∧
    parse_command tokens = parse_command tokens := by
  rw [parse_symbol_accum GRAMMAR tokens FUEL "COMMAND" 0 tr,
    parse_symbol_accum GRAMMAR tokens FUEL "COMMAND" 0 tr']
  refine ⟨rfl, rfl, ?_, rfl⟩
  rw [List.drop_left, List.drop_left]

/-- The tokens reported by the MatchTerminal events of a trace, in temporal
order. -/
def matchedOf (tr : List TraceEvent) : List String :=
  tr.filterMap fun e =>
    match e with
    | TraceEvent.matched s => some s
    | _ => none

/-- The contiguous segment `tokens[i..j)` of a token sequence. -/
def slice (l : List String) (i j : Nat) : List String := (l.take j).drop i

theorem matchedOf_append (a b : List TraceEvent) :
    matchedOf (a ++ b) = matchedOf a ++ matchedOf b :=
  List.filterMap_append a b _

theorem slice_self (l : List String) (i : Nat) : slice l i i = [] := by
  apply List.drop_eq_nil_of_le
  rw [List.length_take]
  exact inf_le_left

theorem slice_succ (l : List String) (i : Nat) (hi : i ≤ l.length) :
    slice l i (i + 1) = l[i]?.toList := by
  unfold slice
  rw [List.take_succ, List.drop_append_of_le_length, List.drop_eq_nil_of_le, List.nil_append]
  · rw [List.length_take]; exact inf_le_left
  · rw [List.length_take]; exact le_inf (Nat.le_refl i) hi

theorem slice_split (l : List String) (i k j : Nat) (h1 : i ≤ k) (h2 : k ≤ j)
    (h3 : k ≤ l.length) : slice l i j = slice l i k ++ slice l k j := by
  unfold slice
  have ht : l.take j = l.take k ++ (l.take j).drop k := by
    conv_lhs => rw [← List.take_append_drop k (l.take j)]
    rw [List.take_take, min_eq_left h2]
  conv_lhs => rw [ht]
  rw [List.drop_append_of_le_length]
  rw [List.length_take]
  exact le_inf h1 (Nat.le_trans h1 h3)

/-- In a successful run of the member loop, the tokens consumed between the
start and end positions appear, in order, among the MatchTerminal events the
loop emitted (the emitted trace may also contain extra matches from
sub-attempts that were later abandoned). -/
theorem parseSeq_matched (tokens : List String)
    (eval : String → Nat → List TraceEvent → Bool × Nat × List TraceEvent)
    (hacc : ∀ s j tr, eval s j tr =
      ((eval s j []).1, (eval s j []).2.1, tr ++ (eval s j []).2.2))
    (hbnd : ∀ s j tr, j ≤ tokens.length → j ≤ (eval s j tr).2.1 ∧
      (eval s j tr).2.1 ≤ tokens.length)
    (hsub : ∀ s j, j ≤ tokens.length → (eval s j []).1 = true →
      List.Sublist (slice tokens j (eval s j []).2.1) (matchedOf (eval s j []).2.2)) :
    ∀ (members : List String) (j : Nat), j ≤ tokens.length →
      (parseSeq eval members j []).1 = true →
      List.Sublist (slice tokens j (parseSeq eval members j []).2.1)
        (matchedOf (parseSeq eval members j []).2.2) := by
  intro members
  induction members with
  | nil =>
    intro j hj _
    simp only [parseSeq]
    rw [slice_self]
    exact List.nil_sublist _
  | cons s rest ih =>
    intro j hj hok
    rcases heq : eval s j [] with ⟨a1, a2, aD⟩
    simp only [parseSeq, heq] at hok ⊢
    cases a1 with
    | false => simp at hok
    | true =>
      simp only [if_pos] at hok ⊢
      have hja : j ≤ a2 ∧ a2 ≤ tokens.length := by
        have := hbnd s j [] hj
        rw [heq] at this
        exact this
      rcases heqb : parseSeq eval rest a2 [] with ⟨b1, b2, bD⟩
      have hb : parseSeq eval rest a2 aD = (b1, b2, aD ++ bD) := by
        rw [parseSeq_accum eval hacc rest a2 aD, heqb]
      rw [hb] at hok ⊢
      have hab : a2 ≤ b2 ∧ b2 ≤ tokens.length := by
        have := parseSeq_bounds eval hbnd rest a2 [] hja.2
        rw [heqb] at this
        exact this
      have sub1 : List.Sublist (slice tokens j a2) (matchedOf aD) := by
        have := hsub s j hj (by rw [heq])
        rw [heq] at this
        exact this
      have sub2 : List.Sublist (slice tokens a2 b2) (matchedOf bD) := by
        have := ih a2 hja.2 (by rw [heqb]; exact hok)
        rw [heqb] at this
        exact this
      rw [slice_split tokens j a2 b2 hja.1 hab.1 hja.2, matchedOf_append]
      exact List.Sublist.append sub1 sub2

/-- In a successful run of the production loop, the tokens consumed appear
in order among the emitted MatchTerminal events; events of abandoned
productions only add extra entries on the left. -/
theorem parseProds_matched (tokens : List String)
    (eval : String → Nat → List TraceEvent → Bool × Nat × List TraceEvent)
    (hacc : ∀ s j tr, eval s j tr =
      ((eval s j []).1, (eval s j []).2.1, tr ++ (eval s j []).2.2))
    (hbnd : ∀ s j tr, j ≤ tokens.length → j ≤ (eval s j tr).2.1 ∧
      (eval s j tr).2.1 ≤ tokens.length)
    (hsub : ∀ s j, j ≤ tokens.length → (eval s j []).1 = true →
      List.Sublist (slice tokens j (eval s j []).2.1) (matchedOf (eval s j []).2.2))
    (sym : String) :
    ∀ (prods : List (List String)) (i : Nat), i ≤ tokens.length →
      (parseProds eval sym prods i []).1 = true →
      List.Sublist (slice tokens i (parseProds eval sym prods i []).2.1)
        (matchedOf (parseProds eval sym prods i []).2.2) := by
  intro prods
  induction prods with
  | nil =>
    intro i _ hok
    simp [parseProds] at hok
  | cons prod rest ih =>
    intro i hi hok
    rcases heq : parseSeq eval prod i [] with ⟨s1, s2, sD⟩
    have h1 : parseSeq eval prod i ([] ++ [TraceEvent.expand sym prod]) =
        (s1, s2, [TraceEvent.expand sym prod] ++ sD) := by
      rw [parseSeq_accum eval hacc prod i ([] ++ [TraceEvent.expand sym prod]), heq]
      simp
    simp only [parseProds, h1] at hok ⊢
    cases s1 with
    | true =>
      simp only [if_pos] at hok ⊢
      have hsd : List.Sublist (slice tokens i s2) (matchedOf sD) := by
        have := parseSeq_matched tokens eval hacc hbnd hsub prod i hi (by rw [heq])
        rw [heq] at this
        exact this
      rw [matchedOf_append]
      refine List.Sublist.trans hsd ?_
      exact List.sublist_append_right _ _
    | false =>
      simp only [Bool.false_eq_true, if_false] at hok ⊢
      rcases heqc : parseProds eval sym rest i [] with ⟨c1, c2, cD⟩
      have hc : parseProds eval sym rest i
          ([TraceEvent.expand sym prod] ++ sD ++ [TraceEvent.backtrack sym prod]) =
          (c1, c2, [TraceEvent.expand sym prod] ++ sD ++ [TraceEvent.backtrack sym prod] ++ cD) := by
        rw [parseProds_accum eval hacc sym rest i _, heqc]
      rw [hc] at hok ⊢
      have hcd : List.Sublist (slice tokens i c2) (matchedOf cD) := by
        have := ih i hi (by rw [heqc]; exact hok)
        rw [heqc] at this
        exact this
      rw [matchedOf_append]
      refine List.Sublist.trans hcd ?_
      exact List.sublist_append_right _ _

/-- In a successful evaluation of any symbol from position `i` to position
`p`, the segment `tokens[i..p)` appears, in order, among the MatchTerminal
events emitted by the evaluation. -/
theorem parse_symbol_matched (g : Grammar) (tokens : List String) :
    ∀ (fuel : Nat) (sym : String) (i : Nat), i ≤ tokens.length →
      (parse_symbol g fuel sym tokens i []).1 = true →
      List.Sublist (slice tokens i (parse_symbol g fuel sym tokens i []).2.1)
        (matchedOf (parse_symbol g fuel sym tokens i []).2.2) := by
  have terminal : ∀ (fuel : Nat) (sym : String) (i : Nat),
      List.lookup sym g = none → i ≤ tokens.length →
      (parse_symbol g fuel sym tokens i []).1 = true →
      List.Sublist (slice tokens i (parse_symbol g fuel sym tokens i []).2.1)
        (matchedOf (parse_symbol g fuel sym tokens i []).2.2) := by
    intro fuel sym i hlook hi hok
    rw [parse_symbol_terminal g fuel sym tokens i [] hlook] at hok ⊢
    cases hget : tokens[i]? with
    | none => simp [hget] at hok
    | some t =>
      by_cases ht : t = sym
      · simp only [hget, ht, if_pos] at hok ⊢
        rw [slice_succ tokens i hi, hget, ht]
        simp [matchedOf]
      · simp [hget, ht] at hok
  intro fuel
  induction fuel with
  | zero =>
    intro sym i hi hok
    cases hlook : List.lookup sym g with
    | none => exact terminal 0 sym i hlook hi hok
    | some prods =>
      rw [parse_symbol_zero g sym tokens i [] prods hlook] at hok
      simp at hok
  | succ f ihf =>
    intro sym i hi hok
    cases hlook : List.lookup sym g with
    | none => exact terminal (Nat.succ f) sym i hlook hi hok
    | some prods =>
      rw [parse_symbol_nonterminal g f sym tokens i [] prods hlook] at hok ⊢
      exact parseProds_matched tokens _
        (fun s j tr => parse_symbol_accum g tokens f s j tr)
        (fun s j tr hj => parse_symbol_bounds g f s tokens j tr hj)
        (fun s j hj hsok => ihf s j hj hsok)
        sym prods i hi hok

/-- Witness for C8 at a concrete input. -/
theorem parse_symbol_pos_le_witness :
    (1 ≤ (parse_symbol GRAMMAR FUEL "SWITCH" ["turn", "on", "fan"] 1 []).2.1 ∧
      (parse_symbol GRAMMAR FUEL "SWITCH" ["turn", "on", "fan"] 1 []).2.1 ≤ 3) ∧
    (parse_symbol GRAMMAR FUEL "COMMAND" ["turn", "on", "fan"] 0 []).2.1 ≤ 3 := by
  exact parse_symbol_pos_le GRAMMAR FUEL "SWITCH" ["turn", "on", "fan"] 1 [] (by decide)

/-- C3 counterexample: the accepted input ["turn", "on", "fan"] produces a
trace whose MatchTerminal events are ["turn", "on", "fan", "fan"] — the
token "fan" is matched once inside the abandoned production
DEVICE → DEVICE_NP "in" ROOM and once again inside the successful
production DEVICE → DEVICE_NP, so the events do not reconstruct the input
exactly. -/
theorem parse_command_matched_cex :
    (parse_command ["turn", "on", "fan"]).1 = true ∧
      matchedOf (parse_command ["turn", "on", "fan"]).2 ≠ ["turn", "on", "fan"] := by
  constructor
  · decide
  · decide

/-- C3 (amended): for every token sequence accepted by the parser, the
consumed index equals the token count, and the MatchTerminal events of the
produced trace, read in temporal order, contain the input token sequence as
a subsequence; extra MatchTerminal events may remain from productions that
matched a prefix and were later abandoned by backtracking. -/
theorem parse_command_matched (tokens : List String)
    (h : (parse_command tokens).1 = true) :
    (parse_symbol GRAMMAR FUEL "COMMAND" tokens 0 []).2.1 = tokens.length ∧
      List.Sublist tokens (matchedOf (parse_command tokens).2) := by
  have h' : (parse_symbol GRAMMAR FUEL "COMMAND" tokens 0 []).1 = true ∧
      (parse_symbol GRAMMAR FUEL "COMMAND" tokens 0 []).2.1 = tokens.length := by
    simpa [parse_command] using h
  refine ⟨h'.2, ?_⟩
  have hsub := parse_symbol_matched GRAMMAR tokens FUEL "COMMAND" 0 (Nat.zero_le _) h'.1
  rw [h'.2] at hsub
  have hslice : slice tokens 0 tokens.length = tokens := by
    simp [slice]
  rw [hslice] at hsub
  simpa [parse_command] using hsub

/-- Witness for C3 (amended) at a concrete accepted input. -/
theorem parse_command_matched_witness :
    (parse_symbol GRAMMAR FUEL "COMMAND" ["turn", "on", "fan"] 0 []).2.1 = 3 ∧
      List.Sublist ["turn", "on", "fan"]
        (matchedOf (parse_command ["turn", "on", "fan"]).2) :=
  parse_command_matched ["turn", "on", "fan"] (by decide)

/-- Contiguous-substring test on character lists, the semantics of Python's
`pat in text` for strings. -/
def containsSub (pat : List Char) : List Char → Bool
  | [] => List.isPrefixOf pat []
  | c :: cs => List.isPrefixOf pat (c :: cs) || containsSub pat cs

/-- Python's `pat in text` on strings. -/
def strIn (pat text : String) : Bool := containsSub pat.data text.data

/-- The configured default device `DEFAULT_LIGHT` of
`src/hybrid_smart_home.py` line 12. -/
def DEFAULT_LIGHT : String := "living room light"

/-- Embedding of `extract_device(text)` from `src/hybrid_smart_home.py`
lines 97-109 (identical in `src/hybrid_smart_home_assistant.py` lines
143-155); `None` becomes `none`. -/
def extract_device (text : String) : Option String :=
  if strIn "living" text && strIn "light" text then some "living room light"
  else if strIn "kitchen" text && strIn "fan" text then some "kitchen fan"
  else if strIn "heater" text then some "bedroom heater"
  else if strIn "light" text then some DEFAULT_LIGHT
  else none

/-- Sanity check: the explicit pair resolves to the paired name. -/
theorem sanity_extract_pair : extract_device "turn on the kitchen fan" = some "kitchen fan" := by
  rfl

/-- Sanity check: a bare "lights" falls back to the configured default. -/
theorem sanity_extract_default :
    extract_device "turn on the lights" = some "living room light" := by rfl

/-- C4 counterexample: in the normalized input "turn on the kitchen heater"
the explicit room token "kitchen" co-occurs with the device token "heater",
yet resolution yields "bedroom heater", not "{room} {device}" =
"kitchen heater" — the heater branch of `extract_device` ignores room
tokens, so the claimed precedence (1) fails. -/
theorem extract_device_cex :
    strIn "kitchen" "turn on the kitchen heater" = true ∧
      strIn "heater" "turn on the kitchen heater" = true ∧
      extract_device "turn on the kitchen heater" = some "bedroom heater" ∧
      ("bedroom heater" : String) ≠ "kitchen heater" := by
  refine ⟨by rfl, by rfl, by rfl, by decide⟩

/-- C4 (amended): resolution in `extract_device` follows the code's fixed
branch order: (1) the two hardwired room-device pairs — "living" with
"light" resolves to "living room light" and "kitchen" with "fan" to
"kitchen fan"; (2) otherwise any text containing "heater" resolves to
"bedroom heater" regardless of any room token; (3) otherwise text
containing "light" resolves to the configured default `DEFAULT_LIGHT` =
"living room light"; (4) otherwise the device is unresolved (`none`,
surfaced as Unrecognized). -/
theorem extract_device_spec (t : String) :
    ((strIn "living" t && strIn "light" t) = true →
        extract_device t = some "living room light") ∧
    ((strIn "living" t && strIn "light" t) = false →
      (strIn "kitchen" t && strIn "fan" t) = true →
        extract_device t = some "kitchen fan") ∧
    ((strIn "living" t && strIn "light" t) = false →
      (strIn "kitchen" t && strIn "fan" t) = false →
      strIn "heater" t = true → extract_device t = some "bedroom heater") ∧
    ((strIn "living" t && strIn "light" t) = false →
      (strIn "kitchen" t && strIn "fan" t) = false →
      strIn "heater" t = false → strIn "light" t = true →
        extract_device t = some DEFAULT_LIGHT) ∧
    ((strIn "living" t && strIn "light" t) = false →
      (strIn "kitchen" t && strIn "fan" t) = false →
      strIn "heater" t = false → strIn "light" t = false →
        extract_device t = none) := by
  refine ⟨?_, ?_, ?_, ?_, ?_⟩
  · intro h1
    simp [extract_device, h1]
  · intro h1 h2
    simp [extract_device, h1, h2]
  · intro h1 h2 h3
    simp [extract_device, h1, h2, h3]
  · intro h1 h2 h3 h4
    cases hlv : strIn "living" t with
    | false => simp [extract_device, hlv, h2, h3, h4, DEFAULT_LIGHT]
    | true =>
      rw [hlv, h4] at h1
      simp at h1
  · intro h1 h2 h3 h4
    simp [extract_device, h1, h2, h3, h4]

/-- Witness for C4 (amended): "turn on fan" has a device token but no room
token and no default room is configured for fans, so resolution is `none`
(unresolved), not a guessed name. -/
theorem extract_device_spec_witness : extract_device "turn on fan" = none :=
  (extract_device_spec "turn on fan").2.2.2.2 (by rfl) (by rfl) (by rfl) (by rfl)

/-- Embedding of `parse_time_of_day(t, ref)` from `src/codeNew.py` lines
114-123, after the regex has split the time expression into the hour `h`
and the meridiem tag.  Time is modelled in whole minutes since an epoch, a
day being 1440 minutes; `ref.replace(hour=h, minute=0, second=0,
microsecond=0)` is the start of `ref`'s day plus `h` hours, and
`timedelta(days=1)` is 1440 minutes. -/
def parse_time_of_day (h : Nat) (ampm : String) (ref : Nat) : Nat :=
  let h1 := if ampm = "pm" ∧ h ≠ 12 then h + 12 else h
  let h2 := if ampm = "am" ∧ h1 = 12 then 0 else h1
  let dt := ref / 1440 * 1440 + h2 * 60
  if dt ≤ ref then dt + 1440 else dt

/-- Embedding of `parse_duration(num, unit, ref)` from `src/codeNew.py`
lines 125-128 in minutes: `'hour' in unit` adds hours, otherwise minutes. -/
def parse_duration (num : Nat) (unit : String) (ref : Nat) : Nat :=
  if strIn "hour" unit then ref + num * 60 else ref + num

/-- The 24-hour reading of "H am/pm" as the spec states it: "12 pm" is hour
12, "12 am" is hour 0, other pm hours add 12. -/
def hour24 (h : Nat) (ampm : String) : Nat :=
  if ampm = "pm" then (if h = 12 then 12 else h + 12) else (if h = 12 then 0 else h)

/-- C5: a clock time "H am/pm" resolves to the next strictly future
occurrence of that hour — a time strictly after `ref`, at most one day
ahead, whose minute-of-day is exactly 60 times the 24-hour reading of the
clock time ("12 pm" = hour 12, "12 am" = hour 0); and a relative duration
"N hours"/"N minutes" resolves to `ref` plus N of that unit. -/
theorem time_resolution (h : Nat) (ampm : String) (ref n m ref2 : Nat)
    (hge : 1 ≤ h) (hle : h ≤ 12) (hm : ampm = "am" ∨ ampm = "pm") :
    (ref < parse_time_of_day h ampm ref ∧
      parse_time_of_day h ampm ref ≤ ref + 1440 ∧
      parse_time_of_day h ampm ref % 1440 = 60 * hour24 h ampm) ∧
    parse_duration n "hours" ref2 = ref2 + n * 60 ∧
    parse_duration m "minutes" ref2 = ref2 + m := by
  refine ⟨?_, by rfl, by rfl⟩
  have hne : ("am" : String) ≠ "pm" := by decide
  have hne2 : ("pm" : String) ≠ "am" := by decide
  rcases hm with hm | hm <;> subst hm <;> by_cases h12 : h = 12 <;>
    simp [parse_time_of_day, hour24, h12, hne, hne2] <;> split_ifs <;> omega

/-- Witness for C5 at concrete inputs: "3 pm" at reference 16:40 of day 0
(minute 1000) and durations of 2 hours and 30 minutes. -/
theorem time_resolution_witness :
    ((1000 : Nat) < parse_time_of_day 3 "pm" 1000 ∧
      parse_time_of_day 3 "pm" 1000 ≤ 1000 + 1440 ∧
      parse_time_of_day 3 "pm" 1000 % 1440 = 60 * hour24 3 "pm") ∧
    parse_duration 2 "hours" 500 = 500 + 2 * 60 ∧
    parse_duration 30 "minutes" 500 = 500 + 30 :=
  time_resolution 3 "pm" 1000 2 30 500 (by decide) (by decide) (Or.inr rfl)

/-- Python's left-to-right, non-overlapping `replace("  ", " ")`: each pair
of adjacent spaces becomes one space, scanning resumes after the
replacement. -/
def squeezeSpaces : List Char → List Char
  | ' ' :: ' ' :: rest => ' ' :: squeezeSpaces rest
  | c :: rest => c :: squeezeSpaces rest
  | [] => []

/-- Python's `str.strip()`: drop whitespace from both ends. -/
def pyStrip (s : List Char) : List Char :=
  ((s.dropWhile Char.isWhitespace).reverse.dropWhile Char.isWhitespace).reverse

/-- The name normalization `name.strip().replace("  ", " ")` performed by
`DeviceController.set_device` in `src/codeNew.py` line 58. -/
def clean_name (s : String) : String := ⟨squeezeSpaces (pyStrip s.data)⟩

/-- The device registry: an ordered association from device name to its
state string, standing for the Python dict `self.devices` (whose values are
`{'state': ...}` records holding exactly the state). -/
abbrev Devices := List (String × String)

/-- In-place update of an existing key, as Python's
`self.devices[name]['state'] = state`. -/
def setState : Devices → String → String → Devices
  | [], _, _ => []
  | (k, v) :: rest, n, st => if k = n then (k, st) :: rest else (k, v) :: setState rest n st

/-- Embedding of `DeviceController.set_device(name, state)` from
`src/codeNew.py` lines 57-66: normalize the name, then update and return
True if the name is a registered device, else return False and change
nothing (logging is I/O only).  Returns the success flag and the updated
registry. -/
def set_device (devs : Devices) (name state : String) : Bool × Devices :=
  let n := clean_name name
  if (List.lookup n devs).isSome then (true, setState devs n state)
  else (false, devs)

/-- The initial registry of `DeviceController.__init__` in
`src/codeNew.py` lines 44-51. -/
def initial_devices : Devices :=
  [("living room lights", "off"), ("kitchen fan", "off"), ("bedroom heater", "off"),
    ("bathroom lights", "off"), ("air conditioner", "off")]

theorem lookup_setState_ne (devs : Devices) (n st d : String) (hd : d ≠ n) :
    List.lookup d (setState devs n st) = List.lookup d devs := by
  induction devs with
  | nil => rfl
  | cons kv rest ih =>
    rcases kv with ⟨k, v⟩
    by_cases hk : k = n
    · subst hk
      simp only [setState, if_pos rfl]
      have hdk : (d == k) = false := by
        simp [hd]
      simp [List.lookup, hdk]
    · simp only [setState, if_neg hk]
      by_cases hdk : d = k
      · subst hdk
        simp [List.lookup]
      · have hdk' : (d == k) = false := by
          simp [hdk]
        simp [List.lookup, hdk', ih]

/-- C10: `set_device` touches at most the device named by the (normalized)
name: every other device keeps its state, whether the call succeeds or
fails, and a failing call (unknown device) leaves the whole registry
unchanged. -/
theorem set_device_frame (devs : Devices) (name state d : String)
    (hd : d ≠ clean_name name) :
    List.lookup d (set_device devs name state).2 = List.lookup d devs ∧
      ((set_device devs name state).1 = false → (set_device devs name state).2 = devs) := by
  unfold set_device
  by_cases hl : (List.lookup (clean_name name) devs).isSome
  · simp only [hl, if_pos]
    exact ⟨lookup_setState_ne devs (clean_name name) state d hd, by intro h; simp at h⟩
  · simp [hl]

/-- Witness for C10 at a concrete input: switching the kitchen fan on
leaves the bedroom heater untouched. -/
theorem set_device_frame_witness :
    List.lookup "bedroom heater" (set_device initial_devices "kitchen fan" "on").2 =
      List.lookup "bedroom heater" initial_devices ∧
      ((set_device initial_devices "kitchen fan" "on").1 = false →
        (set_device initial_devices "kitchen fan" "on").2 = initial_devices) :=
  set_device_frame initial_devices "kitchen fan" "on" "bedroom heater" (by decide)

/-- The semantic record built by `interpret(text)` in `src/codeNew.py`
lines 130-157: Python `None` fields are modelled as `""` (for the string
fields) and `0` (for the time), values `interpret` never stores in a field
it sets. -/
structure Sem where
  action_type : String
  device : String
  state : String
  task : String
  scheduled_time : Nat
deriving DecidableEq, Repr

/-- Outcome of one handled command: the returned dictionary of
`SmartHomeAssistant.handle` plus the registry and reminder-queue state the
call leaves behind. -/
structure HandleResult where
  ok : Bool
  trace : List TraceEvent
  result : String
  devices : Devices
  scheduled : List (Nat × String)
deriving DecidableEq, Repr

/-- Embedding of the dispatch logic of `SmartHomeAssistant.handle` from
`src/codeNew.py` lines 187-207, taking the grammar verdict `ok` and trace
(computed at line 183 by `parse_command`) and the semantic record `sem`
(computed at line 184 by `interpret`) as inputs; database persistence is an
external effect and the scheduler is modelled as the queue of
(time, task) pairs handed to it. -/
def handle_dispatch (ok : Bool) (trace : List TraceEvent) (sem : Sem)
    (devs : Devices) (sched : List (Nat × String)) : HandleResult :=
  if sem.action_type = "device" then
    let r := set_device devs sem.device sem.state
    { ok := ok, trace := trace,
      result := if r.1 then "✅ Device command executed" else "⚠️ Unknown device",
      devices := r.2, scheduled := sched }
  else if sem.action_type = "schedule" then
    { ok := ok, trace := trace,
      result := "🕒 Reminder set for " ++ toString sem.scheduled_time,
      devices := devs, scheduled := sched ++ [(sem.scheduled_time, sem.task)] }
  else
    { ok := false, trace := trace, result := "❌ Command not recognized",
      devices := devs, scheduled := sched }

/-- C6: when the extracted intent is a device action, the dispatcher always
attempts execution through the device registry — the registry update and
the user-facing outcome are those of `set_device`, identical whether the
grammar accepted or rejected the tokens — and the grammar verdict is
surfaced only as the diagnostic `ok` field of the returned record. -/
theorem handle_dispatch_device (ok ok' : Bool) (trace : List TraceEvent) (sem : Sem)
    (devs : Devices) (sched : List (Nat × String))
    (h : sem.action_type = "device") :
    (handle_dispatch ok trace sem devs sched).devices =
      (set_device devs sem.device sem.state).2 ∧
    (handle_dispatch ok trace sem devs sched).result =
      (if (set_device devs sem.device sem.state).1 then "✅ Device command executed"
        else "⚠️ Unknown device") ∧
    (handle_dispatch ok trace sem devs sched).devices =
      (handle_dispatch ok' trace sem devs sched).devices ∧
    (handle_dispatch ok trace sem devs sched).result =
      (handle_dispatch ok' trace sem devs sched).result ∧
    (handle_dispatch ok trace sem devs sched).ok = ok := by
  simp [handle_dispatch, h]

/-- Witness for C6 at a concrete input: a device intent whose token
sequence the grammar rejected (ok = false) still executes through the
registry, and the grammar verdict is only the diagnostic field. -/
theorem handle_dispatch_device_witness :
    (handle_dispatch false [] ⟨"device", "kitchen fan", "on", "", 0⟩
        initial_devices []).devices =
      (set_device initial_devices "kitchen fan" "on").2 ∧
    (handle_dispatch false [] ⟨"device", "kitchen fan", "on", "", 0⟩
        initial_devices []).result =
      (if (set_device initial_devices "kitchen fan" "on").1
        then "✅ Device command executed" else "⚠️ Unknown device") ∧
    (handle_dispatch false [] ⟨"device", "kitchen fan", "on", "", 0⟩
        initial_devices []).devices =
      (handle_dispatch true [] ⟨"device", "kitchen fan", "on", "", 0⟩
        initial_devices []).devices ∧
    (handle_dispatch false [] ⟨"device", "kitchen fan", "on", "", 0⟩
        initial_devices []).result =
      (handle_dispatch true [] ⟨"device", "kitchen fan", "on", "", 0⟩
        initial_devices []).result ∧
    (handle_dispatch false [] ⟨"device", "kitchen fan", "on", "", 0⟩
        initial_devices []).ok = false :=
  handle_dispatch_device false true [] ⟨"device", "kitchen fan", "on", "", 0⟩
    initial_devices [] rfl

end SmartHome
